import Mathlib

/-!
Shallow embedding of the goxlsx spreadsheet reader (speedata/goxlsx).

The Go sources embedded here are the top-level package files `xlsx.go` and
`types.go` (the current implementation), together with the value-resolution
branch of the older streaming reader variant (`reader/xlsx.go`) where a claim
concerns it.  Go maps are modelled as association lists with insert-in-front /
first-match-lookup semantics (so a later insert for the same key shadows the
earlier entry, exactly like a Go map assignment).  Go's `rune` arithmetic is
32-bit two's-complement, modelled by `int32Wrap`.  Returned Go `error` values
and runtime panics are distinguished by the two constructors of `GoErr`.
-/

set_option autoImplicit false

/-- Outcome channel of embedded Go code: `goError` models a returned non-nil
`error` value, `goPanic` models a runtime panic (index out of range, nil
dereference, makeslice with negative length). -/
inductive GoErr : Type where
  | goError (msg : String)
  | goPanic (msg : String)
  deriving DecidableEq, Repr

/-- Message of Go's runtime panic on a nil pointer dereference. -/
def nilDerefMsg : String := "runtime error: invalid memory address or nil pointer dereference"

/-- Message of Go's runtime panic on an out-of-range index. -/
def oobMsg : String := "runtime error: index out of range"

/-- Character code as an integer, as Go rune arithmetic sees it. -/
def charCode (c : Char) : Int := c.toNat

/-- The test `v >= 'A' && v <= 'Z'` from `stringToPosition` (Go compares runes
numerically). -/
def isUpperAZ (c : Char) : Bool :=
  decide (charCode 'A' ≤ charCode c) && decide (charCode c ≤ charCode 'Z')

/-- The test `v >= '0' && v <= '9'` from `stringToPosition`. -/
def isDigit09 (c : Char) : Bool :=
  decide (charCode '0' ≤ charCode c) && decide (charCode c ≤ charCode '9')

/-- Reduction of an integer to the signed 32-bit value Go's `rune` (= `int32`)
arithmetic produces: two's-complement wrap-around into `[-2^31, 2^31)`. -/
def int32Wrap (n : Int) : Int := (n + 2 ^ 31) % 2 ^ 32 - 2 ^ 31

/-- One loop step of `stringToPosition` acting on `columnnumber`:
`columnnumber = columnnumber*26 + v - 'A' + 1` when `v` is an uppercase letter,
unchanged otherwise (rune arithmetic, hence the 32-bit wrap). -/
def colStep (c : Int) (v : Char) : Int :=
  if isUpperAZ v then int32Wrap (c * 26 + charCode v - charCode 'A' + 1) else c

/-- One loop step of `stringToPosition` acting on `rownumber`:
`rownumber = rownumber*10 + v - '0'` when `v` is a decimal digit. -/
def rowStep (r : Int) (v : Char) : Int :=
  if isDigit09 v then int32Wrap (r * 10 + charCode v - charCode '0') else r

/-- One iteration of the `for _, v := range excelpos` loop of
`stringToPosition`: both independent `if` statements run on every character. -/
def stpStep (cr : Int × Int) (v : Char) : Int × Int :=
  (colStep cr.1 v, rowStep cr.2 v)

/-- Embeds `stringToPosition` (xlsx.go:148-159): scans every character of the
input, folding uppercase letters into the column accumulator and decimal digits
into the row accumulator; all other characters are skipped.  The function is
total and returns `(column, row)`. -/
def stringToPosition (excelpos : String) : Int × Int :=
  excelpos.data.foldl stpStep (0, 0)

/-- Embeds the cell-reference column fold inside `readWorksheet`
(xlsx.go:199-203): only the uppercase letters of the `r` attribute contribute. -/
def colFromRef (r : String) : Int := r.data.foldl colStep 0

/-- Splitting a character list at every occurrence of a separator character;
the list of fragments is never empty.  This is `strings.Split` for the
single-character separator used in the source (`":"`). -/
def splitChar (sep : Char) : List Char → List (List Char)
  | [] => [[]]
  | c :: rest =>
    match splitChar sep rest with
    | [] => [[c]]
    | h :: t => if c = sep then [] :: h :: t else (c :: h) :: t

/-- Embeds `strings.Split(s, ":")` as used on the dimension reference
(xlsx.go:182). -/
def goSplitColon (s : String) : List String :=
  (splitChar ':' s.data).map (fun l => ⟨l⟩)

/-- Embeds `strconv.Atoi`: optional sign, then a non-empty run of decimal
digits; any other shape, or a value outside the signed 64-bit range, yields a
non-nil error (`none`). -/
def goAtoi (s : String) : Option Int :=
  let p : Int × List Char :=
    match s.data with
    | '+' :: rest => (1, rest)
    | '-' :: rest => (-1, rest)
    | l => (1, l)
  if p.2 = [] then none
  else if p.2.all isDigit09 then
    let v : Int := p.1 * p.2.foldl (fun a c => a * 10 + (charCode c - charCode '0')) 0
    if v < -(2 ^ 63) ∨ 2 ^ 63 ≤ v then none else some v
  else none

/-- Embeds `strings.HasSuffix`. -/
def goHasSuffix (s suffix : String) : Bool := suffix.data.isSuffixOf s.data

/-- Embeds `strings.TrimSuffix`: removes exactly one trailing occurrence of
`suffix` when present, otherwise returns the string unchanged. -/
def goTrimSuffix (s suffix : String) : String :=
  if goHasSuffix s suffix then ⟨s.data.take (s.data.length - suffix.data.length)⟩ else s

/-- Embeds the explicit-numeric (`t="n"`) character-data branch of the
streaming reader variant (reader/xlsx.go:249-250):
`currentCell.Value = strings.TrimSuffix(val, ".0")`. -/
def readerNumericValue (val : String) : String := goTrimSuffix val ".0"

/-- Specification-side definition, following the spec's words: the value of a
column-letter run as a bijective base-26 numeral, most significant letter
first, with A=1 … Z=26 and no zero digit. -/
def bijBase26 : List Char → Int
  | [] => 0
  | c :: rest => (charCode c - charCode 'A' + 1) * 26 ^ rest.length + bijBase26 rest

/-- Specification-side definition: the value of a digit run read as a decimal
numeral. -/
def decimalVal : List Char → Int
  | [] => 0
  | c :: rest => (charCode c - charCode '0') * 10 ^ rest.length + decimalVal rest

/-- Association-list model of a Go map: lookup returns the most recently
inserted binding for the key, `none` when the key is absent (the Go map access
then yields the value type's zero value — `nil` for pointers). -/
def mget {κ α : Type} [BEq κ] (m : List (κ × α)) (k : κ) : Option α :=
  (m.find? fun p => p.1 == k).map Prod.snd

/-- Association-list model of a Go map assignment `m[k] = v`: the new binding
shadows any earlier one. -/
def mput {κ α : Type} (m : List (κ × α)) (k : κ) (v : α) : List (κ × α) :=
  (k, v) :: m

/-- The `cell` struct of xlsx.go. -/
structure cell where
  Name : String := ""
  type : String := ""
  Value : String := ""
  deriving DecidableEq, Repr

/-- The `row` struct of xlsx.go: row number and the sparse column → cell map. -/
structure row where
  Num : Int := 0
  Cells : List (Int × cell) := []
  deriving DecidableEq, Repr

/-- The `Worksheet` struct of xlsx.go; every field starts at its Go zero
value (`&Worksheet{}`). -/
structure Worksheet where
  Name : String := ""
  MaxRow : Int := 0
  MaxColumn : Int := 0
  MinRow : Int := 0
  MinColumn : Int := 0
  filename : String := ""
  id : String := ""
  rid : String := ""
  rows : List (Int × row) := []
  deriving DecidableEq, Repr

/-- The internal `relationship` struct (Type and Target of one workbook
relationship). -/
structure relationship where
  type : String := ""
  Target : String := ""
  deriving DecidableEq, Repr

/-- The `xlsxColumn` struct of types.go: one `<c>` element as unmarshalled. -/
structure xlsxColumn where
  R : String := ""
  T : String := ""
  V : String := ""
  Text : String := ""
  deriving DecidableEq, Repr

/-- The `xlsx_row` struct of types.go: one `<row>` element as unmarshalled. -/
structure xlsx_row where
  Rownumber : Int := 0
  Cols : List xlsxColumn := []
  deriving DecidableEq, Repr

/-- The `xlsxWorksheet` struct of types.go, reduced to the fields the decoder
reads: the dimension reference attribute (`""` when the worksheet part has no
dimension element) and the `<sheetData>` rows. -/
structure xlsxWorksheet where
  DimensionRef : String := ""
  Row : List xlsx_row := []
  deriving DecidableEq, Repr

/-- The `Spreadsheet` struct of xlsx.go.  `uncompressedFiles` maps a member
name to the bytes of that member, represented by the outcome of unmarshalling
them as a worksheet part (`Except.error` for malformed XML; a missing member
gives a `nil` byte slice, whose unmarshal also fails, with "EOF"). -/
structure Spreadsheet where
  filepath : String := ""
  worksheets : List Worksheet := []
  sharedStrings : List String := []
  uncompressedFiles : List (String × Except String xlsxWorksheet) := []
  relationships : List (String × relationship) := []

/-- Embeds `NumWorksheets` (xlsx.go:51-53). -/
def Spreadsheet.NumWorksheets (s : Spreadsheet) : Int := s.worksheets.length

/-- Go map read `s.relationships[rid]`: a missing key yields the zero
`relationship`. -/
def Spreadsheet.relGet (s : Spreadsheet) (rid : String) : relationship :=
  (mget s.relationships rid).getD {}

/-- Go map read `s.uncompressedFiles[filename]`: a missing key yields a `nil`
byte slice, and `xml.Unmarshal` of an empty input fails with "EOF". -/
def Spreadsheet.fileGet (s : Spreadsheet) (filename : String) : Except String xlsxWorksheet :=
  (mget s.uncompressedFiles filename).getD (.error "EOF")

/-- Embeds the per-cell body of the `readWorksheet` column loop
(xlsx.go:204-218), resolving type tag and stored value:
`t="s"` parses the `<v>` text with `strconv.Atoi` (a parse error is returned
as an error) and indexes the shared-string pool — an index outside
`[0, len(pool))` is a runtime panic, exactly like `s.sharedStrings[v]`;
an absent type attribute stores the text verbatim with tag "v"; any other
type tag (such as "n") matches neither branch and leaves the freshly
allocated cell at its zero value. -/
def resolveCell (pool : List String) (c : xlsxColumn) : Except GoErr cell :=
  if c.T = "s" then
    match goAtoi c.V with
    | none => .error (.goError "strconv.Atoi: parsing")
    | some v =>
      if h : 0 ≤ v ∧ v.toNat < pool.length then
        .ok { Name := "", type := "s", Value := pool.get ⟨v.toNat, h.2⟩ }
      else
        .error (.goPanic oobMsg)
  else if c.T = "" then
    .ok { Name := "", type := "v", Value := c.V }
  else
    .ok { Name := "", type := "", Value := "" }

/-- Embeds the inner `for col` loop of `readWorksheet` (xlsx.go:196-220):
each `<c>` element's column number is folded from the uppercase letters of its
`r` attribute, and the resolved cell is assigned into the row's cell map
(assignment to an existing column shadows the earlier cell, like a Go map
write). -/
def buildRow (pool : List String) (cells : List (Int × cell)) :
    List xlsxColumn → Except GoErr (List (Int × cell))
  | [] => .ok cells
  | c :: rest =>
    match resolveCell pool c with
    | .error e => .error e
    | .ok cr => buildRow pool (mput cells (colFromRef c.R) cr) rest

/-- Embeds the outer `for xrow` loop of `readWorksheet` (xlsx.go:188-221). -/
def buildRows (pool : List String) (rows : List (Int × row)) :
    List xlsx_row → Except GoErr (List (Int × row))
  | [] => .ok rows
  | xr :: rest =>
    match buildRow pool [] xr.Cols with
    | .error e => .error e
    | .ok cells => buildRows pool (mput rows xr.Rownumber ⟨xr.Rownumber, cells⟩) rest

/-- Embeds `Spreadsheet.readWorksheet` (xlsx.go:174-223).  A failed unmarshal
of the part bytes is returned as an error.  `tmp := strings.Split(Dimension.Ref, ":")`
is then indexed at 0 and 1: when the reference contains no colon (in particular
when the worksheet part has no dimension element, leaving `Ref == ""`), `tmp`
has exactly one element and `tmp[1]` is a runtime index-out-of-range panic. -/
def Spreadsheet.readWorksheet (s : Spreadsheet) (data : Except String xlsxWorksheet) :
    Except GoErr Worksheet :=
  match data with
  | .error e => .error (.goError e)
  | .ok wsXlsx =>
    match goSplitColon wsXlsx.DimensionRef with
    | t0 :: t1 :: _ =>
      let p0 := stringToPosition t0
      let p1 := stringToPosition t1
      match buildRows s.sharedStrings [] wsXlsx.Row with
      | .error e => .error e
      | .ok rs =>
        .ok { MinColumn := p0.1, MinRow := p0.2, MaxColumn := p1.1, MaxRow := p1.2, rows := rs }
    | _ => .error (.goPanic oobMsg)

/-- Embeds `Worksheet.Cell` (xlsx.go:163-172): look up the row, then the
column; either miss returns the empty string. -/
def Worksheet.Cell (ws : Worksheet) (column r : Int) : String :=
  match mget ws.rows r with
  | none => ""
  | some xrow =>
    match mget xrow.Cells column with
    | none => ""
    | some c => c.Value

/-- Embeds the part-name resolution of `GetWorksheet` (xlsx.go:230-231):
`filename := "xl/" + s.relationships[rid].Target` for the descriptor's
relationship id. -/
def Spreadsheet.resolvedFilename (s : Spreadsheet) (number : Int) : String :=
  "xl/" ++ (s.relGet ((s.worksheets.getD number.toNat {}).rid)).Target

/-- Embeds `Spreadsheet.GetWorksheet` (xlsx.go:226-239), instrumented with the
final spreadsheet state (the method assigns to no field of `s`, so the state
out is the state in) and the list of part names handed to `readWorksheet`
during the call, which makes re-decoding observable.  The source checks the
bounds, resolves the part name through the relationship table, decodes, and
only then tests `err != nil` — but `ws.filename = filename` runs first, so
when `readWorksheet` returns `(nil, err)` the method dereferences a nil
`*Worksheet` and panics instead of reaching its own error return. -/
def Spreadsheet.GetWorksheetT (s : Spreadsheet) (number : Int) :
    Except GoErr Worksheet × Spreadsheet × List String :=
  if number ≥ s.NumWorksheets ∨ number < 0 then
    (.error (.goError "index out of range"), s, [])
  else
    let filename := s.resolvedFilename number
    match s.readWorksheet (s.fileGet filename) with
    | .ok ws =>
      (.ok { ws with filename := filename, Name := (s.worksheets.getD number.toNat {}).Name },
        s, [filename])
    | .error (.goPanic m) => (.error (.goPanic m), s, [filename])
    | .error (.goError _) => (.error (.goPanic nilDerefMsg), s, [filename])

/-- The result of one `GetWorksheet` call (first projection of the
instrumented embedding). -/
def Spreadsheet.GetWorksheet (s : Spreadsheet) (number : Int) : Except GoErr Worksheet :=
  (s.GetWorksheetT number).1

/-- Two successive `GetWorksheet` calls with the same index, threading the
spreadsheet state from the first call into the second; returns both results
and the concatenated decode trace. -/
def Spreadsheet.GetWorksheetTwice (s : Spreadsheet) (number : Int) :
    Except GoErr Worksheet × Except GoErr Worksheet × List String :=
  let r1 := s.GetWorksheetT number
  let r2 := r1.2.1.GetWorksheetT number
  (r1.1, r2.1, r1.2.2 ++ r2.2.2)

/-- The `si` struct of types.go (one shared-string item). -/
structure si where
  T : String := ""
  deriving DecidableEq, Repr

/-- The `sst` struct of types.go: the shared-string table root element with its
`count` and `uniqueCount` attributes. -/
structure sst where
  Count : Int := 0
  UniqueCount : Int := 0
  Si : List si := []
  deriving DecidableEq, Repr

/-- The copy loop of `readStrings` (xlsx.go:79-81): `ret[i] = sst.Si[i].T` for
`i` from 0 to `UniqueCount-1`; when the `si` entries run out before the count
does, the read `sst.Si[i]` is a runtime index-out-of-range panic. -/
def copySi : List si → Nat → Except GoErr (List String)
  | _, 0 => .ok []
  | [], _ + 1 => .error (.goPanic oobMsg)
  | x :: rest, n + 1 =>
    match copySi rest n with
    | .ok l => .ok (x.T :: l)
    | .error e => .error e

/-- Embeds `readStrings` (xlsx.go:75-83).  The `xml.Unmarshal` error is
discarded, so the function sees only the `sst` struct in whatever state the
unmarshal left it: the zero value when the part is absent (unmarshalling nil
bytes assigns nothing before failing), and possibly partially populated fields
after a mid-stream parse failure (attributes and si entries decoded before the
error remain assigned).  The argument is therefore that struct, in any state.
`make([]string, UniqueCount)` panics when the declared count is negative;
otherwise the copy loop `ret[i] = sst.Si[i].T` runs for `i < UniqueCount`. -/
def readStrings (s : sst) : Except GoErr (List String) :=
  if s.UniqueCount < 0 then .error (.goPanic "makeslice: len out of range")
  else copySi s.Si s.UniqueCount.toNat

/-! ## Helper lemmas -/

theorem charCode_nonneg (c : Char) : 0 ≤ charCode c := Int.ofNat_nonneg _

theorem isUpperAZ_iff {c : Char} : isUpperAZ c = true ↔ 65 ≤ charCode c ∧ charCode c ≤ 90 := by
  simp [isUpperAZ, charCode]

theorem isDigit09_iff {c : Char} : isDigit09 c = true ↔ 48 ≤ charCode c ∧ charCode c ≤ 57 := by
  simp [isDigit09, charCode]

theorem upper_not_digit {c : Char} (h : isUpperAZ c = true) : isDigit09 c = false := by
  rw [isUpperAZ_iff] at h
  rw [Bool.eq_false_iff]
  intro hd
  rw [isDigit09_iff] at hd
  omega

theorem digit_not_upper {c : Char} (h : isDigit09 c = true) : isUpperAZ c = false := by
  rw [isDigit09_iff] at h
  rw [Bool.eq_false_iff]
  intro hu
  rw [isUpperAZ_iff] at hu
  omega

theorem int32Wrap_id {v : Int} (h0 : 0 ≤ v) (h1 : v < 2 ^ 31) : int32Wrap v = v := by
  unfold int32Wrap
  omega

theorem colStep_skip {c : Char} (a : Int) (h : isUpperAZ c = false) : colStep a c = a := by
  simp [colStep, h]

theorem rowStep_skip {c : Char} (a : Int) (h : isDigit09 c = false) : rowStep a c = a := by
  simp [rowStep, h]

theorem foldl_stpStep (l : List Char) (c r : Int) :
    l.foldl stpStep (c, r) = (l.foldl colStep c, l.foldl rowStep r) := by
  induction l generalizing c r with
  | nil => rfl
  | cons x xs ih => exact ih (colStep c x) (rowStep r x)

theorem stringToPosition_eq_pair (s : String) :
    stringToPosition s = (s.data.foldl colStep 0, s.data.foldl rowStep 0) :=
  foldl_stpStep s.data 0 0

theorem foldl_colStep_filter (l : List Char) (a : Int) :
    l.foldl colStep a = (l.filter isUpperAZ).foldl colStep a := by
  induction l generalizing a with
  | nil => rfl
  | cons x xs ih =>
    by_cases h : isUpperAZ x
    · simp [List.filter_cons, h, ih (colStep a x)]
    · rw [Bool.not_eq_true] at h
      simp [List.filter_cons, h, colStep_skip a h, ih a]

theorem foldl_rowStep_filter (l : List Char) (a : Int) :
    l.foldl rowStep a = (l.filter isDigit09).foldl rowStep a := by
  induction l generalizing a with
  | nil => rfl
  | cons x xs ih =>
    by_cases h : isDigit09 x
    · simp [List.filter_cons, h, ih (rowStep a x)]
    · rw [Bool.not_eq_true] at h
      simp [List.filter_cons, h, rowStep_skip a h, ih a]

theorem foldl_colStep_skip_all {l : List Char} (a : Int) (h : ∀ c ∈ l, isUpperAZ c = false) :
    l.foldl colStep a = a := by
  induction l generalizing a with
  | nil => rfl
  | cons x xs ih =>
    rw [List.foldl_cons, colStep_skip a (h x (by simp))]
    exact ih a fun c hc => h c (by simp [hc])

theorem foldl_rowStep_skip_all {l : List Char} (a : Int) (h : ∀ c ∈ l, isDigit09 c = false) :
    l.foldl rowStep a = a := by
  induction l generalizing a with
  | nil => rfl
  | cons x xs ih =>
    rw [List.foldl_cons, rowStep_skip a (h x (by simp))]
    exact ih a fun c hc => h c (by simp [hc])

theorem bijBase26_nonneg {l : List Char} (h : ∀ c ∈ l, isUpperAZ c = true) :
    0 ≤ bijBase26 l := by
  induction l with
  | nil => simp [bijBase26]
  | cons x xs ih =>
    have hx := (isUpperAZ_iff.1 (h x (by simp)))
    have hrest := ih fun c hc => h c (by simp [hc])
    have hpow : (0 : Int) < 26 ^ xs.length := by positivity
    have hmul : 0 ≤ (charCode x - charCode 'A' + 1) * 26 ^ xs.length := by
      apply mul_nonneg _ (le_of_lt hpow)
      simp [charCode] at hx ⊢
      omega
    simp only [bijBase26]
    omega

theorem decimalVal_nonneg {l : List Char} (h : ∀ c ∈ l, isDigit09 c = true) :
    0 ≤ decimalVal l := by
  induction l with
  | nil => simp [decimalVal]
  | cons x xs ih =>
    have hx := (isDigit09_iff.1 (h x (by simp)))
    have hrest := ih fun c hc => h c (by simp [hc])
    have hpow : (0 : Int) < 10 ^ xs.length := by positivity
    have hmul : 0 ≤ (charCode x - charCode '0') * 10 ^ xs.length := by
      apply mul_nonneg _ (le_of_lt hpow)
      simp [charCode] at hx ⊢
      omega
    simp only [decimalVal]
    omega

theorem foldl_colStep_letters (l : List Char) (a : Int)
    (h : ∀ c ∈ l, isUpperAZ c = true) (ha : 0 ≤ a)
    (hb : a * 26 ^ l.length + bijBase26 l < 2 ^ 31) :
    l.foldl colStep a = a * 26 ^ l.length + bijBase26 l := by
  induction l generalizing a with
  | nil => simp [bijBase26]
  | cons x xs ih =>
    have hx : isUpperAZ x = true := h x (by simp)
    have hxc := isUpperAZ_iff.1 hx
    have hA : charCode 'A' = 65 := rfl
    have hxs : ∀ c ∈ xs, isUpperAZ c = true := fun c hc => h c (by simp [hc])
    have hrest : 0 ≤ bijBase26 xs := bijBase26_nonneg hxs
    have hpow : (0 : Int) < 26 ^ xs.length := by positivity
    have hsplit : a * 26 ^ (x :: xs).length + bijBase26 (x :: xs)
        = (a * 26 + (charCode x - charCode 'A' + 1)) * 26 ^ xs.length + bijBase26 xs := by
      simp only [List.length_cons, bijBase26, pow_succ]
      ring
    have ha' : 0 ≤ a * 26 + (charCode x - charCode 'A' + 1) := by omega
    have hle : a * 26 + (charCode x - charCode 'A' + 1)
        ≤ (a * 26 + (charCode x - charCode 'A' + 1)) * 26 ^ xs.length :=
      le_mul_of_one_le_right ha' (by omega)
    have hb' : (a * 26 + (charCode x - charCode 'A' + 1)) * 26 ^ xs.length + bijBase26 xs
        < 2 ^ 31 := by rw [← hsplit]; exact hb
    have hstep : colStep a x = a * 26 + (charCode x - charCode 'A' + 1) := by
      rw [colStep, if_pos hx]
      have harg : a * 26 + charCode x - charCode 'A' + 1
          = a * 26 + (charCode x - charCode 'A' + 1) := by ring
      rw [harg]
      exact int32Wrap_id (by omega) (by omega)
    rw [List.foldl_cons, hstep, ih _ hxs ha' hb', hsplit]

theorem foldl_rowStep_digits (l : List Char) (a : Int)
    (h : ∀ c ∈ l, isDigit09 c = true) (ha : 0 ≤ a)
    (hb : a * 10 ^ l.length + decimalVal l < 2 ^ 31) :
    l.foldl rowStep a = a * 10 ^ l.length + decimalVal l := by
  induction l generalizing a with
  | nil => simp [decimalVal]
  | cons x xs ih =>
    have hx : isDigit09 x = true := h x (by simp)
    have hxc := isDigit09_iff.1 hx
    have h0 : charCode '0' = 48 := rfl
    have hxs : ∀ c ∈ xs, isDigit09 c = true := fun c hc => h c (by simp [hc])
    have hrest : 0 ≤ decimalVal xs := decimalVal_nonneg hxs
    have hpow : (0 : Int) < 10 ^ xs.length := by positivity
    have hsplit : a * 10 ^ (x :: xs).length + decimalVal (x :: xs)
        = (a * 10 + (charCode x - charCode '0')) * 10 ^ xs.length + decimalVal xs := by
      simp only [List.length_cons, decimalVal, pow_succ]
      ring
    have ha' : 0 ≤ a * 10 + (charCode x - charCode '0') := by omega
    have hle : a * 10 + (charCode x - charCode '0')
        ≤ (a * 10 + (charCode x - charCode '0')) * 10 ^ xs.length :=
      le_mul_of_one_le_right ha' (by omega)
    have hb' : (a * 10 + (charCode x - charCode '0')) * 10 ^ xs.length + decimalVal xs
        < 2 ^ 31 := by rw [← hsplit]; exact hb
    have hstep : rowStep a x = a * 10 + (charCode x - charCode '0') := by
      rw [rowStep, if_pos hx]
      have harg : a * 10 + charCode x - charCode '0'
          = a * 10 + (charCode x - charCode '0') := by ring
      rw [harg]
      exact int32Wrap_id (by omega) (by omega)
    rw [List.foldl_cons, hstep, ih _ hxs ha' hb', hsplit]

theorem upper_and_digit_false (c : Char) : (isUpperAZ c && isDigit09 c) = false := by
  by_cases h : isDigit09 c
  · simp [digit_not_upper h]
  · simp [Bool.not_eq_true] at h
    simp [h]

/-! ## Claim C4 -/

set_option maxRecDepth 4000 in
/-- C4, counterexample.  The claim quantifies over every well-formed reference
(a run of uppercase letters followed by a run of digits) and asserts the decode
yields the bijective base-26 column value.  The column accumulator is a Go
`rune` (int32), so the letter run "ZZZZZZZ", whose bijective base-26 value is
8353082582 ≥ 2^31, wraps around and decodes to the negative column -236852010
instead. -/
theorem C4_counterexample :
    stringToPosition "ZZZZZZZ1" = (-236852010, 1)
    ∧ bijBase26 "ZZZZZZZ".data = 8353082582 := by
  constructor
  · rfl
  · rfl

/-- C4, amended.  For every reference made of a non-empty run of uppercase
letters followed by a non-empty run of decimal digits, `stringToPosition`
returns the letter run's bijective base-26 value as the column and the digit
run's decimal value as the row, provided both values fit below 2^31 (the Go
`rune` accumulators are 32-bit, see `C4_counterexample`). -/
theorem C4_amended (ls ds : List Char) (hl : ls ≠ []) (hd : ds ≠ [])
    (hls : ∀ c ∈ ls, isUpperAZ c = true) (hds : ∀ c ∈ ds, isDigit09 c = true)
    (hcol : bijBase26 ls < 2 ^ 31) (hrow : decimalVal ds < 2 ^ 31) :
    stringToPosition ⟨ls ++ ds⟩ = (bijBase26 ls, decimalVal ds) := by
  rw [stringToPosition_eq_pair]
  have hdata : (⟨ls ++ ds⟩ : String).data = ls ++ ds := rfl
  rw [hdata, List.foldl_append, List.foldl_append]
  have hcolv : ls.foldl colStep 0 = bijBase26 ls := by
    have := foldl_colStep_letters ls 0 hls le_rfl (by simpa using hcol)
    simpa using this
  have hcol2 : ds.foldl colStep (ls.foldl colStep 0) = bijBase26 ls := by
    rw [foldl_colStep_skip_all _ (fun c hc => digit_not_upper (hds c hc))]
    exact hcolv
  have hrow1 : ls.foldl rowStep 0 = 0 :=
    foldl_rowStep_skip_all _ (fun c hc => upper_not_digit (hls c hc))
  have hrow2 : ds.foldl rowStep (ls.foldl rowStep 0) = decimalVal ds := by
    rw [hrow1]
    have := foldl_rowStep_digits ds 0 hds le_rfl (by simpa using hrow)
    simpa using this
  rw [hcol2, hrow2]

/-- C4, witness: "AC101" decodes to column 29, row 101. -/
theorem C4_amended_witness : stringToPosition "AC101" = (29, 101) := by
  have h := C4_amended ['A', 'C'] ['1', '0', '1'] (by simp) (by simp)
    (by decide) (by decide) (by decide) (by decide)
  exact h

/-! ## Claim C5 -/

/-- C5, counterexample.  The claim says an input lacking an uppercase-letter
run fails with a FormatError rather than producing a (column, row) pair; but
`stringToPosition` has no error result at all, and on "101" it produces the
pair (0, 101). -/
theorem C5_counterexample : stringToPosition "101" = (0, 101) := rfl

/-- C5, amended.  `stringToPosition` never fails: it folds uppercase letters
into the column and digits into the row wherever they occur, ignoring every
other character, so any input decodes exactly as the rearrangement
letters-then-digits does, an input with no uppercase letter yields column 0,
and an input with no digit yields row 0. -/
theorem C5_amended (s : String) :
    stringToPosition s = stringToPosition ⟨s.data.filter isUpperAZ ++ s.data.filter isDigit09⟩
    ∧ ((∀ c ∈ s.data, isUpperAZ c = false) → (stringToPosition s).1 = 0)
    ∧ ((∀ c ∈ s.data, isDigit09 c = false) → (stringToPosition s).2 = 0) := by
  refine ⟨?_, ?_, ?_⟩
  · rw [stringToPosition_eq_pair, stringToPosition_eq_pair]
    have hdata : (⟨s.data.filter isUpperAZ ++ s.data.filter isDigit09⟩ : String).data
        = s.data.filter isUpperAZ ++ s.data.filter isDigit09 := rfl
    rw [hdata]
    have hudfalse : ∀ c ∈ s.data.filter isDigit09, isUpperAZ c = false := by
      intro c hc
      exact digit_not_upper (List.of_mem_filter hc)
    have hdufalse : ∀ c ∈ s.data.filter isUpperAZ, isDigit09 c = false := by
      intro c hc
      exact upper_not_digit (List.of_mem_filter hc)
    have hc1 : (s.data.filter isUpperAZ ++ s.data.filter isDigit09).foldl colStep 0
        = s.data.foldl colStep 0 := by
      rw [List.foldl_append, foldl_colStep_skip_all _ hudfalse,
        ← foldl_colStep_filter]
    have hr1 : (s.data.filter isUpperAZ ++ s.data.filter isDigit09).foldl rowStep 0
        = s.data.foldl rowStep 0 := by
      rw [List.foldl_append, foldl_rowStep_skip_all _ hdufalse]
      · rw [← foldl_rowStep_filter]
    rw [hc1, hr1]
  · intro h
    rw [stringToPosition_eq_pair]
    exact foldl_colStep_skip_all 0 h
  · intro h
    rw [stringToPosition_eq_pair]
    exact foldl_rowStep_skip_all 0 h

/-- C5, witness: a letterless input decodes to column 0 and a digitless input
decodes to row 0, via `C5_amended`. -/
theorem C5_amended_witness :
    (stringToPosition "12").1 = 0 ∧ (stringToPosition "AB").2 = 0 :=
  ⟨(C5_amended "12").2.1 (by decide), (C5_amended "AB").2.2 (by decide)⟩

/-! ## Decode-level helper lemmas -/

theorem mget_cons_self {κ α : Type} [BEq κ] [LawfulBEq κ] (k : κ) (v : α) (m : List (κ × α)) :
    mget ((k, v) :: m) k = some v := by
  unfold mget
  rw [List.find?_cons_of_pos _ (by simp)]
  rfl

theorem resolveCell_s_inbounds (pool : List String) (c : xlsxColumn) (k : Int)
    (hs : c.T = "s") (hk : goAtoi c.V = some k) (h : 0 ≤ k ∧ k.toNat < pool.length) :
    resolveCell pool c = .ok { Name := "", type := "s", Value := pool.get ⟨k.toNat, h.2⟩ } := by
  unfold resolveCell
  rw [hs, hk]
  simp [dif_pos h]

theorem resolveCell_s_oob (pool : List String) (c : xlsxColumn) (k : Int)
    (hs : c.T = "s") (hk : goAtoi c.V = some k) (h : ¬(0 ≤ k ∧ k.toNat < pool.length)) :
    resolveCell pool c = .error (.goPanic oobMsg) := by
  unfold resolveCell
  rw [hs, hk]
  simp [dif_neg h]

theorem resolveCell_other (pool : List String) (c : xlsxColumn)
    (hs : c.T ≠ "s") (he : c.T ≠ "") :
    resolveCell pool c = .ok { Name := "", type := "", Value := "" } := by
  unfold resolveCell
  rw [if_neg hs, if_neg he]

theorem buildRows_single (pool : List String) (rn : Int) (c : xlsxColumn) :
    buildRows pool [] [{ Rownumber := rn, Cols := [c] }]
    = match resolveCell pool c with
      | .error e => .error e
      | .ok cr => .ok [(rn, { Num := rn, Cells := [(colFromRef c.R, cr)] })] := by
  cases hres : resolveCell pool c with
  | error e => simp [buildRows, buildRow, hres]
  | ok cr => simp [buildRows, buildRow, hres, mput]

theorem readWorksheet_single (sp : Spreadsheet) (rn : Int) (c : xlsxColumn) :
    sp.readWorksheet (.ok { DimensionRef := "A1:B2", Row := [{ Rownumber := rn, Cols := [c] }] })
    = match resolveCell sp.sharedStrings c with
      | .error e => .error e
      | .ok cr => .ok { MinColumn := 1, MinRow := 1, MaxColumn := 2, MaxRow := 2, rows := [(rn, { Num := rn, Cells := [(colFromRef c.R, cr)] })] } := by
  have h1 : sp.readWorksheet (.ok { DimensionRef := "A1:B2", Row := [{ Rownumber := rn, Cols := [c] }] })
      = match buildRows sp.sharedStrings [] [{ Rownumber := rn, Cols := [c] }] with
        | .error e => .error e
        | .ok rs => .ok { MinColumn := 1, MinRow := 1, MaxColumn := 2, MaxRow := 2, rows := rs } :=
    rfl
  rw [h1, buildRows_single]
  cases resolveCell sp.sharedStrings c <;> rfl

theorem Cell_single (rn coln : Int) (cr : cell) (mins maxs : Int) :
    Worksheet.Cell { MinColumn := mins, MinRow := mins, MaxColumn := maxs, MaxRow := maxs, rows := [(rn, { Num := rn, Cells := [(coln, cr)] })] } coln rn = cr.Value := by
  simp [Worksheet.Cell, mget_cons_self]

/-! ## Claim C1 -/

/-- C1, counterexample.  The claim says a shared-string cell with index k ≥
len(pool) fails the decode with a FormatError rather than crashing; on the
one-cell worksheet referencing index 1 against the one-element pool ["x"],
`readWorksheet` instead reproduces Go's runtime panic on
`s.sharedStrings[v]` — the `goPanic` outcome, not a returned error. -/
theorem C1_counterexample :
    Spreadsheet.readWorksheet { sharedStrings := ["x"] } (.ok { DimensionRef := "A1:B2", Row := [{ Rownumber := 1, Cols := [{ R := "A1", T := "s", V := "1" }] }] })
    = .error (.goPanic oobMsg) := rfl

/-- C1, amended.  For every pool, row number and shared-string cell whose text
parses to the integer k: if k is within `[0, len pool)` the decoded cell's
value is `pool[k]` (read back through `Cell` at the cell's coordinates), and if
`k ≥ len pool` the decode crashes with Go's index-out-of-range panic — not a
FormatError. -/
theorem C1_amended (sp : Spreadsheet) (rn : Int) (c : xlsxColumn) (k : Int)
    (hs : c.T = "s") (hk : goAtoi c.V = some k) :
    ((0 ≤ k ∧ k < (sp.sharedStrings.length : Int)) →
      (sp.readWorksheet (.ok { DimensionRef := "A1:B2", Row := [{ Rownumber := rn, Cols := [c] }] })).map
        (fun ws => ws.Cell (colFromRef c.R) rn)
      = .ok (sp.sharedStrings.getD k.toNat ""))
    ∧ ((sp.sharedStrings.length : Int) ≤ k →
      sp.readWorksheet (.ok { DimensionRef := "A1:B2", Row := [{ Rownumber := rn, Cols := [c] }] })
      = .error (.goPanic oobMsg)) := by
  constructor
  · rintro ⟨hk0, hklt⟩
    have hb : 0 ≤ k ∧ k.toNat < sp.sharedStrings.length := ⟨hk0, by omega⟩
    rw [readWorksheet_single, resolveCell_s_inbounds sp.sharedStrings c k hs hk hb]
    simp only [Except.map]
    rw [Cell_single]
    rw [List.getD_eq_get sp.sharedStrings "" hb.2]
  · intro hge
    have hb : ¬(0 ≤ k ∧ k.toNat < sp.sharedStrings.length) := by
      rintro ⟨h0, hlt⟩
      omega
    rw [readWorksheet_single, resolveCell_s_oob sp.sharedStrings c k hs hk hb]

/-- C1, witness: with pool ["hello"], index 0 decodes to value "hello", and
index 7 crashes the decode with the index-out-of-range panic. -/
theorem C1_amended_witness :
    (Spreadsheet.readWorksheet { sharedStrings := ["hello"] } (.ok { DimensionRef := "A1:B2", Row := [{ Rownumber := 1, Cols := [{ R := "A", T := "s", V := "0" }] }] })).map
      (fun ws => ws.Cell (colFromRef "A") 1) = .ok "hello"
    ∧ Spreadsheet.readWorksheet { sharedStrings := ["hello"] } (.ok { DimensionRef := "A1:B2", Row := [{ Rownumber := 1, Cols := [{ R := "A", T := "s", V := "7" }] }] })
      = .error (.goPanic oobMsg) := by
  constructor
  · exact (C1_amended { sharedStrings := ["hello"] } 1 { R := "A", T := "s", V := "0" } 0
      rfl (by decide)).1 (by decide)
  · exact (C1_amended { sharedStrings := ["hello"] } 1 { R := "A", T := "s", V := "7" } 7
      rfl (by decide)).2 (by decide)

/-! ## Claim C7 -/

/-- C7, counterexample.  The claim says a cell with explicit type "n" stores
its text unchanged apart from a trailing ".0"; but the current decoder's cell
resolution handles only `t="s"` and an absent type attribute, so a `t="n"`
cell with text "3.14" decodes to the empty string, not "3.14". -/
theorem C7_counterexample :
    (Spreadsheet.readWorksheet { sharedStrings := [] } (.ok { DimensionRef := "A1:B2", Row := [{ Rownumber := 1, Cols := [{ R := "A", T := "n", V := "3.14" }] }] })).map (fun ws => ws.Cell 1 1)
    = .ok ""
    ∧ (Spreadsheet.readWorksheet { sharedStrings := [] } (.ok { DimensionRef := "A1:B2", Row := [{ Rownumber := 1, Cols := [{ R := "A", T := "n", V := "3.14" }] }] })).map (fun ws => ws.Cell 1 1)
    ≠ .ok "3.14" := by
  refine ⟨rfl, ?_⟩
  intro h
  rw [show (Spreadsheet.readWorksheet { sharedStrings := [] } (.ok { DimensionRef := "A1:B2", Row := [{ Rownumber := 1, Cols := [{ R := "A", T := "n", V := "3.14" }] }] })).map (fun ws => ws.Cell 1 1) = (.ok "" : Except GoErr String) from rfl] at h
  exact absurd (Except.ok.inj h) (by decide)

/-- C7, amended.  In the current top-level decoder a cell whose type attribute
is "n" matches neither decode branch: its stored value is always the empty
string.  The ".0" normalization exists only in the streaming reader variant,
whose numeric character-data resolution removes exactly one trailing literal
".0" when present and leaves every other string unchanged. -/
theorem C7_amended :
    (∀ (sp : Spreadsheet) (rn : Int) (c : xlsxColumn), c.T = "n" →
      (sp.readWorksheet (.ok { DimensionRef := "A1:B2", Row := [{ Rownumber := rn, Cols := [c] }] })).map (fun ws => ws.Cell (colFromRef c.R) rn) = .ok "")
    ∧ (∀ u : String, readerNumericValue (u ++ ".0") = u)
    ∧ (∀ v : String, goHasSuffix v ".0" = false → readerNumericValue v = v) := by
  refine ⟨?_, ?_, ?_⟩
  · intro sp rn c hn
    rw [readWorksheet_single,
      resolveCell_other sp.sharedStrings c (by rw [hn]; decide) (by rw [hn]; decide)]
    simp only [Except.map]
    rw [Cell_single]
  · intro u
    unfold readerNumericValue goTrimSuffix
    have hsuf : goHasSuffix (u ++ ".0") ".0" = true := by
      unfold goHasSuffix
      rw [String.data_append]
      simp
    rw [if_pos hsuf]
    have hn : u.data.length = (u ++ ".0").data.length - (".0" : String).data.length := by
      rw [String.data_append, List.length_append]
      omega
    conv_lhs => rw [String.data_append]
    rw [List.take_left' (by rw [hn, String.data_append])]
  · intro v hv
    unfold readerNumericValue goTrimSuffix
    rw [hv]
    rfl

/-- C7, witness: the top-level decoder stores "" for a `t="n"` cell holding
"3.14"; the reader variant maps "3.0" to "3" and keeps "3.14" unchanged. -/
theorem C7_amended_witness :
    (Spreadsheet.readWorksheet { sharedStrings := [] } (.ok { DimensionRef := "A1:B2", Row := [{ Rownumber := 2, Cols := [{ R := "B", T := "n", V := "3.0" }] }] })).map (fun ws => ws.Cell (colFromRef "B") 2) = .ok ""
    ∧ readerNumericValue "3.0" = "3"
    ∧ readerNumericValue "3.14" = "3.14" := by
  refine ⟨?_, ?_, ?_⟩
  · exact C7_amended.1 { sharedStrings := [] } 2 { R := "B", T := "n", V := "3.0" } rfl
  · exact C7_amended.2.1 "3"
  · exact C7_amended.2.2 "3.14" (by decide)

/-! ## Claim C2 -/

/-- C2, theorem for the code bug.  On a spreadsheet whose resolved worksheet
part is present but malformed (its unmarshal fails), `GetWorksheet` does not
return the error: `readWorksheet` returns `(nil, err)` and the method assigns
`ws.filename = filename` before its `err != nil` check, dereferencing the nil
`*Worksheet` — a runtime panic, with no Worksheet and no FormatError
returned. -/
theorem C2_theorem :
    Spreadsheet.GetWorksheet { worksheets := [{ Name := "S", id := "1", rid := "rId1" }], relationships := [("rId1", { type := "ws", Target := "worksheets/sheet1.xml" })], uncompressedFiles := [("xl/worksheets/sheet1.xml", .error "XML syntax error on line 1")] } 0
    = .error (.goPanic nilDerefMsg) := rfl

/-! ## Claim C6 -/

/-- C6, theorem.  First conjunct: the worksheet part is resolved through the
relationship table joined against "xl/" — the descriptor with sheet id "1" and
relationship id "rId9" decodes the member "xl/worksheets/custom_name.xml"
named by the relationship target (reading cell (1,1) = "odd" from it), not the
conventional "xl/worksheets/sheet1.xml" which is also present with different
content.  Second conjunct: when the resolved target names no member of the
package, the nil-bytes unmarshal fails and `GetWorksheet` panics on the nil
Worksheet dereference instead of returning the FormatError the claim
requires. -/
theorem C6_theorem :
    (Spreadsheet.GetWorksheet { worksheets := [{ Name := "S", id := "1", rid := "rId9" }], relationships := [("rId9", { type := "ws", Target := "worksheets/custom_name.xml" })], uncompressedFiles := [("xl/worksheets/custom_name.xml", .ok { DimensionRef := "A1:B2", Row := [{ Rownumber := 1, Cols := [{ R := "A1", T := "", V := "odd" }] }] }), ("xl/worksheets/sheet1.xml", .ok { DimensionRef := "A1:B2", Row := [{ Rownumber := 1, Cols := [{ R := "A1", T := "", V := "convention" }] }] })] } 0).map (fun ws => (ws.filename, ws.Cell 1 1))
    = .ok ("xl/worksheets/custom_name.xml", "odd")
    ∧ Spreadsheet.GetWorksheet { worksheets := [{ Name := "S", id := "1", rid := "rId9" }], relationships := [("rId9", { type := "ws", Target := "worksheets/missing.xml" })], uncompressedFiles := [("xl/worksheets/sheet1.xml", .ok { DimensionRef := "A1:B2", Row := [] })] } 0
    = .error (.goPanic nilDerefMsg) := by
  exact ⟨rfl, rfl⟩

/-! ## Claim C9 -/

/-- C9, theorem for the code bug.  First conjunct: a dimension reference
"A1:AC101" decodes into the bounding box (min 1,1; max 29,101).  Second
conjunct: a worksheet part with no dimension element leaves `Dimension.Ref`
empty, `strings.Split` yields a single-element slice, and the decoder's
`tmp[1]` read panics with index out of range instead of succeeding with the
zero bounding box the claim describes. -/
theorem C9_theorem :
    (Spreadsheet.readWorksheet {} (.ok { DimensionRef := "A1:AC101", Row := [] })).map (fun w => (w.MinColumn, w.MinRow, w.MaxColumn, w.MaxRow))
    = .ok (1, 1, 29, 101)
    ∧ Spreadsheet.readWorksheet {} (.ok { DimensionRef := "", Row := [] })
    = .error (.goPanic oobMsg) := by
  exact ⟨rfl, rfl⟩

/-! ## Claim C3 -/

theorem GetWorksheetT_state (s : Spreadsheet) (i : Int) : (s.GetWorksheetT i).2.1 = s := by
  unfold Spreadsheet.GetWorksheetT
  by_cases h : i ≥ s.NumWorksheets ∨ i < 0
  · rw [if_pos h]
  · rw [if_neg h]
    dsimp only
    split <;> rfl

theorem GetWorksheetT_trace (s : Spreadsheet) (i : Int) (h0 : 0 ≤ i) (h1 : i < s.NumWorksheets) :
    (s.GetWorksheetT i).2.2 = [s.resolvedFilename i] := by
  unfold Spreadsheet.GetWorksheetT
  rw [if_neg (by omega)]
  dsimp only
  split <;> rfl

/-- C3, counterexample.  The claim says a second call with the same valid
index returns the cached Worksheet without decoding the part again.  On a
concrete one-sheet spreadsheet, the decode trace of two successive
`GetWorksheet 0` calls contains the worksheet part name twice: the second call
runs the decode again — `GetWorksheet` maintains no cache.  (The two results
are equal values, but each is a freshly decoded Worksheet.) -/
theorem C3_counterexample :
    (Spreadsheet.GetWorksheetTwice { worksheets := [{ Name := "Sheet1", id := "1", rid := "rId1" }], sharedStrings := [], relationships := [("rId1", { type := "ws", Target := "worksheets/data99.xml" })], uncompressedFiles := [("xl/worksheets/data99.xml", .ok { DimensionRef := "A1:B2", Row := [{ Rownumber := 1, Cols := [{ R := "A1", T := "", V := "A" }] }] })] } 0).2.2
    = ["xl/worksheets/data99.xml", "xl/worksheets/data99.xml"] := rfl

/-- C3, amended.  `GetWorksheet(i)` fails with the returned "index out of
range" error (the spec's RangeError) for every i outside [0, NumWorksheets());
for valid i repeated calls return equal results — but there is no cache: every
call, the second included, decodes the resolved worksheet part again, as the
decode trace of two successive calls shows. -/
theorem C3_amended (s : Spreadsheet) (i : Int) :
    ((i < 0 ∨ s.NumWorksheets ≤ i) → s.GetWorksheet i = .error (.goError "index out of range"))
    ∧ (0 ≤ i → i < s.NumWorksheets →
        ((s.GetWorksheetTwice i).1 = (s.GetWorksheetTwice i).2.1
         ∧ (s.GetWorksheetTwice i).2.2 = [s.resolvedFilename i, s.resolvedFilename i])) := by
  constructor
  · intro h
    unfold Spreadsheet.GetWorksheet Spreadsheet.GetWorksheetT
    rw [if_pos (by omega)]
  · intro h0 h1
    constructor
    · unfold Spreadsheet.GetWorksheetTwice
      dsimp only
      rw [GetWorksheetT_state]
    · unfold Spreadsheet.GetWorksheetTwice
      dsimp only
      rw [GetWorksheetT_state, GetWorksheetT_trace s i h0 h1]
      rfl

/-- C3, witness: index 5 on a one-sheet spreadsheet fails with the range
error; index 0 is valid and its two-call decode trace names the resolved part
twice. -/
theorem C3_amended_witness :
    Spreadsheet.GetWorksheet { worksheets := [{ Name := "S7", id := "7", rid := "rId7" }], relationships := [("rId7", { type := "ws", Target := "worksheets/w7.xml" })], uncompressedFiles := [("xl/worksheets/w7.xml", .ok { DimensionRef := "A1:B2", Row := [] })] } 5
    = .error (.goError "index out of range")
    ∧ (Spreadsheet.GetWorksheetTwice { worksheets := [{ Name := "S7", id := "7", rid := "rId7" }], relationships := [("rId7", { type := "ws", Target := "worksheets/w7.xml" })], uncompressedFiles := [("xl/worksheets/w7.xml", .ok { DimensionRef := "A1:B2", Row := [] })] } 0).2.2
    = ["xl/worksheets/w7.xml", "xl/worksheets/w7.xml"] := by
  constructor
  · exact (C3_amended _ 5).1 (by right; decide)
  · exact ((C3_amended _ 0).2 (by decide) (by decide)).2

/-! ## Claim C8 -/

/-- C8, theorem.  `Cell(column, row)` is total (it can return only a string,
never an error), and whenever the row is absent from the sparse row map, or
the column is absent from that row's cell map, it returns the empty string. -/
theorem C8_theorem (ws : Worksheet) (column r : Int)
    (h : mget ws.rows r = none ∨ ∃ xr, mget ws.rows r = some xr ∧ mget xr.Cells column = none) :
    ws.Cell column r = "" := by
  unfold Worksheet.Cell
  rcases h with h | ⟨xr, hr, hc⟩
  · rw [h]
  · rw [hr]
    dsimp only
    rw [hc]

/-- C8, witness: on a worksheet holding only cell (1,1), both a missing column
(2,1) and a missing row (1,5) read back as the empty string. -/
theorem C8_theorem_witness :
    Worksheet.Cell { rows := [(1, { Num := 1, Cells := [(1, { Value := "A" })] })] } 2 1 = ""
    ∧ Worksheet.Cell { rows := [(1, { Num := 1, Cells := [(1, { Value := "A" })] })] } 1 5 = "" := by
  constructor
  · exact C8_theorem _ 2 1 (Or.inr ⟨_, rfl, rfl⟩)
  · exact C8_theorem _ 1 5 (Or.inl rfl)

/-! ## Claim C10 -/

theorem copySi_ok (l : List si) (n : Nat) (h : n ≤ l.length) :
    copySi l n = .ok ((l.take n).map si.T) := by
  induction l generalizing n with
  | nil =>
    cases n with
    | zero => rfl
    | succ m => simp at h
  | cons x xs ih =>
    cases n with
    | zero => rfl
    | succ m =>
      have hm : m ≤ xs.length := by simpa using h
      simp [copySi, ih m hm]

theorem copySi_oob (l : List si) (n : Nat) (h : l.length < n) :
    copySi l n = .error (.goPanic oobMsg) := by
  induction l generalizing n with
  | nil =>
    cases n with
    | zero => omega
    | succ m => rfl
  | cons x xs ih =>
    cases n with
    | zero => omega
    | succ m =>
      have hm : xs.length < m := by simpa using h
      simp [copySi, ih m hm]

/-- C10, counterexample.  The claim says the pool built by `readStrings` has
length exactly the declared uniqueCount for every parsed part, zero when the
part is unparseable.  First conjunct: a part declaring `uniqueCount="-1"`
panics in `make([]string, -1)` and no pool is built at all.  Second conjunct:
a mid-stream parse failure (e.g. a part truncated right after
`<sst uniqueCount="1">`) leaves the partially populated struct
`UniqueCount = 1, Si = []` — the ignored unmarshal error does not reset it —
and the copy loop then panics at `sst.Si[0]` instead of yielding the zero
pool the claim's parenthetical promises. -/
theorem C10_counterexample :
    readStrings { Count := 0, UniqueCount := -1, Si := [] }
    = .error (.goPanic "makeslice: len out of range")
    ∧ readStrings { Count := 0, UniqueCount := 1, Si := [] }
    = .error (.goPanic oobMsg) := ⟨rfl, rfl⟩

/-- C10, amended.  `readStrings` sees only the `sst` struct in the state
`xml.Unmarshal` left it (the error is ignored, so a mid-stream failure leaves
partially assigned fields, not the zero value).  An absent part leaves the
zero struct and yields the empty pool.  Whatever state the struct is in:
when `0 ≤ uniqueCount ≤ len(si)` the pool is exactly the first uniqueCount si
texts and has length exactly uniqueCount; when uniqueCount exceeds the si
entries actually present in the struct — which includes the truncated-part
states a failed parse leaves behind — building the pool panics with an
out-of-bounds index instead of returning an error; and a negative declared
uniqueCount panics in the slice allocation (see `C10_counterexample`). -/
theorem C10_amended (s : sst) :
    (s = {} → readStrings s = .ok [])
    ∧ (0 ≤ s.UniqueCount → s.UniqueCount ≤ (s.Si.length : Int) →
        readStrings s = .ok ((s.Si.take s.UniqueCount.toNat).map si.T)
        ∧ ((s.Si.take s.UniqueCount.toNat).map si.T).length = s.UniqueCount.toNat)
    ∧ ((s.Si.length : Int) < s.UniqueCount →
        readStrings s = .error (.goPanic oobMsg)) := by
  refine ⟨?_, ?_, ?_⟩
  · intro h
    rw [h]
    rfl
  · intro h0 h1
    unfold readStrings
    rw [if_neg (by omega)]
    refine ⟨copySi_ok s.Si s.UniqueCount.toNat (by omega), ?_⟩
    rw [List.length_map, List.length_take]
    omega
  · intro hlt
    unfold readStrings
    rw [if_neg (by omega)]
    exact copySi_oob s.Si s.UniqueCount.toNat (by omega)

/-- C10, witness: the zero struct (absent part) yields the empty pool;
uniqueCount 2 over three si entries yields the two-element pool; uniqueCount 4
over one si entry panics with index out of range. -/
theorem C10_amended_witness :
    readStrings {} = .ok []
    ∧ readStrings { Count := 3, UniqueCount := 2, Si := [{ T := "a" }, { T := "b" }, { T := "c" }] } = .ok ["a", "b"]
    ∧ readStrings { Count := 4, UniqueCount := 4, Si := [{ T := "a" }] } = .error (.goPanic oobMsg) := by
  refine ⟨?_, ?_, ?_⟩
  · exact (C10_amended {}).1 rfl
  · exact ((C10_amended _).2.1 (by decide) (by decide)).1
  · exact (C10_amended _).2.2 (by decide)
